/-
Verification of the voca-engine core: data model, in-memory store
(`src/utils/InMemoryStorage.ts`), orchestration engine
(`src/engine/VocaEngine.ts`) and entity value classes (`src/models/*.ts`),
shallowly embedded in Lean 4.

Modelling conventions:
* JS `Date` values are modelled as milliseconds since the Unix epoch
  (`Nat`); `new Date()` becomes an explicit `now : Nat` argument.
* `uuidv4()` is modelled as a fresh-identifier supply: the engine state
  carries a counter and `freshId` renders it injectively into a string.
* JS `Map` is modelled as an association list with insertion-order
  iteration and in-place update on existing keys, like the ES Map.
* Thrown errors become `Except EngineError`; the constructors of
  `EngineError` correspond one-to-one to the distinct `throw` sites.
-/
import Mathlib

set_option autoImplicit false

namespace VocaSpec

/-! ## JS string primitives used by the source -/

/-- Whitespace recognised by JS `String.prototype.trim` (the characters that
actually occur in practice: ASCII whitespace plus NBSP, BOM and the Unicode
line/paragraph separators). -/
def isJsWs (c : Char) : Bool :=
  c = ' ' || c = '\t' || c = '\n' || c = '\r' ||
  c = '\x0b' || c = '\x0c' || c.toNat = 0xa0 || c.toNat = 0xfeff ||
  c.toNat = 0x2028 || c.toNat = 0x2029

/-- Trim on character lists: drop leading and trailing whitespace. -/
def trimChars (l : List Char) : List Char :=
  ((l.dropWhile isJsWs).reverse.dropWhile isJsWs).reverse

/-- Model of JS `String.prototype.trim`. -/
def jsTrim (s : String) : String :=
  ⟨trimChars s.data⟩

/-- Model of JS `String.prototype.toLowerCase`, character-wise. -/
def jsLower (s : String) : String :=
  ⟨s.data.map Char.toLower⟩

/-- `listStartsWith pat l` is true when `pat` is an initial segment of `l`. -/
def listStartsWith : List Char → List Char → Bool
  | [], _ => true
  | _ :: _, [] => false
  | p :: ps, c :: cs => p = c && listStartsWith ps cs

/-- `listHasSub pat l`: `pat` occurs contiguously inside `l`
(model of JS `String.prototype.includes`, pattern fixed). -/
def listHasSub (pat : List Char) : List Char → Bool
  | [] => listStartsWith pat []
  | c :: cs => listStartsWith pat (c :: cs) || listHasSub pat cs

/-- Model of JS `s.includes(pat)`. -/
def jsIncludes (s pat : String) : Bool :=
  listHasSub pat.data s.data

/-! ## Data model (`src/models`, `src/types`) -/

/-- `InputType` from `src/types`. -/
inductive InputType where
  | Expression
  | Explanation
  | Image
  deriving DecidableEq, Repr

/-- `ExpressionInput` (`src/models/ExpressionInput.ts`): `createdAt` is
epoch milliseconds. -/
structure ExpressionInput where
  id : String
  type : InputType
  content : String
  createdAt : Nat
  deriving DecidableEq, Repr

/-- `Suggestion` (`src/models/Suggestion.ts`). -/
structure Suggestion where
  id : String
  inputId : String
  candidates : List String
  generatedAt : Nat
  deriving DecidableEq, Repr

/-- `Collection` (`src/models/Collection.ts`). -/
structure Collection where
  id : String
  name : String
  createdAt : Nat
  deriving DecidableEq, Repr

/-- `Entry` (`src/models/Entry.ts`): embeds full `input` and `suggestion`
snapshots. -/
structure Entry where
  id : String
  input : ExpressionInput
  suggestion : Suggestion
  collectionId : String
  tags : List String
  savedAt : Nat
  deriving DecidableEq, Repr

namespace Collection

/-- `Collection.rename` (`src/models/Collection.ts` line 33): it calls
`new Collection(newName, this.id)`, and the constructor sets
`createdAt = new Date()`, i.e. to the current time `now`. -/
def rename (c : Collection) (newName : String) (now : Nat) : Collection :=
  { id := c.id, name := newName, createdAt := now }

end Collection

namespace Entry

/-- `Entry.hasTag` (`src/models/Entry.ts`). -/
def hasTag (e : Entry) (tag : String) : Bool :=
  e.tags.contains tag

/-- `Entry.addTag` (`src/models/Entry.ts`): returns `this` unchanged when the
tag is already present, else a new `Entry` (same id) with the tag appended
verbatim; the `Entry` constructor stamps `savedAt = new Date()`. -/
def addTag (e : Entry) (tag : String) (now : Nat) : Entry :=
  if e.hasTag tag then e
  else { e with tags := e.tags ++ [tag], savedAt := now }

/-- `Entry.removeTag` (`src/models/Entry.ts`). -/
def removeTag (e : Entry) (tag : String) (now : Nat) : Entry :=
  { e with tags := e.tags.filter (fun t => t ≠ tag), savedAt := now }

/-- `Entry.updateTags` (`src/models/Entry.ts`): replaces the tag list with a
verbatim copy of the argument. -/
def updateTags (e : Entry) (tags : List String) (now : Nat) : Entry :=
  { e with tags := tags, savedAt := now }

end Entry

/-! ## JS `Map` model -/

/-- Association list standing for an ES `Map`: `set` updates in place when
the key is present (keeping its position in iteration order) and appends
otherwise; iteration (`values`) follows insertion order. -/
def mapSet {α : Type} (m : List (String × α)) (k : String) (v : α) :
    List (String × α) :=
  match m with
  | [] => [(k, v)]
  | (k', v') :: rest =>
    if k' = k then (k', v) :: rest else (k', v') :: mapSet rest k v

/-- `Map.get`: first binding of the key, `null` as `none`. -/
def mapGet {α : Type} (m : List (String × α)) (k : String) : Option α :=
  match m with
  | [] => none
  | (k', v) :: rest => if k' = k then some v else mapGet rest k

/-- `Map.values()` in iteration order. -/
def mapValues {α : Type} (m : List (String × α)) : List α :=
  m.map Prod.snd

/-- `Map.delete`. -/
def mapDelete {α : Type} (m : List (String × α)) (k : String) :
    List (String × α) :=
  m.filter (fun p => p.1 ≠ k)

/-! ## In-memory store (`src/utils/InMemoryStorage.ts`) -/

/-- The four keyed record collections of `InMemoryStorage`. -/
structure StoreState where
  inputs : List (String × ExpressionInput)
  suggestions : List (String × Suggestion)
  collections : List (String × Collection)
  entries : List (String × Entry)
  deriving DecidableEq, Repr

/-- The empty store. -/
def StoreState.empty : StoreState :=
  { inputs := [], suggestions := [], collections := [], entries := [] }

/-- `SearchOptions` (`src/types`): every field optional. -/
structure SearchOptions where
  query : Option String := none
  collectionId : Option String := none
  tags : Option (List String) := none
  limit : Option Nat := none
  offset : Option Nat := none
  deriving DecidableEq, Repr

/-- Stable insertion of an entry into a list already sorted by `savedAt`
descending: `e` goes before the first strictly older entry, after entries
with the same `savedAt` (stability, as in ES2019 `Array.prototype.sort`). -/
def insertBySavedAtDesc (e : Entry) : List Entry → List Entry
  | [] => [e]
  | x :: xs =>
    if x.savedAt < e.savedAt then e :: x :: xs
    else x :: insertBySavedAtDesc e xs

/-- Stable sort by `savedAt` descending, the comparator
`(a, b) => b.savedAt.getTime() - a.savedAt.getTime()` of the source. -/
def sortBySavedAtDesc : List Entry → List Entry
  | [] => []
  | x :: xs => insertBySavedAtDesc x (sortBySavedAtDesc xs)

namespace InMemoryStorage

/-- `InMemoryStorage.listEntries`: entries of the collection, most recent
first. -/
def listEntries (s : StoreState) (collectionId : String) : List Entry :=
  sortBySavedAtDesc
    ((mapValues s.entries).filter (fun e => e.collectionId = collectionId))

/-- The query predicate inside `InMemoryStorage.searchEntries`
(`src/utils/InMemoryStorage.ts` lines 104–123): the lowercased query is a
substring of the lowercased input content, of some lowercased suggestion
candidate, or of some lowercased tag. -/
def entryMatches (lowerQuery : String) (e : Entry) : Bool :=
  jsIncludes (jsLower e.input.content) lowerQuery ||
  e.suggestion.candidates.any (fun c => jsIncludes (jsLower c) lowerQuery) ||
  e.tags.any (fun t => jsIncludes (jsLower t) lowerQuery)

/-- `InMemoryStorage.searchEntries` (`src/utils/InMemoryStorage.ts` lines
93–141), including the JS truthiness tests: `if (options.collectionId)` and
`if (options.query)` skip the filter for an empty string, and
`options.limit || results.length` treats `limit: 0` as "no limit". -/
def searchEntries (s : StoreState) (options : SearchOptions) : List Entry :=
  let results0 := mapValues s.entries
  let results1 :=
    match options.collectionId with
    | some cid =>
      if cid ≠ "" then results0.filter (fun e => e.collectionId = cid)
      else results0
    | none => results0
  let results2 :=
    match options.query with
    | some q =>
      if q ≠ "" then results1.filter (entryMatches (jsLower q))
      else results1
    | none => results1
  let results3 :=
    match options.tags with
    | some tags =>
      if tags.length > 0 then
        results2.filter (fun e => tags.all (fun t => e.tags.contains t))
      else results2
    | none => results2
  let sorted := sortBySavedAtDesc results3
  let offset := options.offset.getD 0
  let limit :=
    match options.limit with
    | some l => if l = 0 then sorted.length else l
    | none => sorted.length
  (sorted.drop offset).take limit

/-- The `Partial<Collection>` payload of `updateCollection`. -/
structure CollectionUpdate where
  id : Option String := none
  name : Option String := none
  createdAt : Option Nat := none
  deriving DecidableEq, Repr

/-- `InMemoryStorage.updateCollection` (`src/utils/InMemoryStorage.ts` lines
143–158): spreads the payload over the existing record, then forces `id` and
`createdAt` back to the existing values. -/
def updateCollection (s : StoreState) (id : String) (updates : CollectionUpdate) :
    Except String (Collection × StoreState) :=
  match mapGet s.collections id with
  | none => .error ("Collection with id " ++ id ++ " not found")
  | some existing =>
    let updated : Collection :=
      { name := updates.name.getD existing.name
        id := existing.id
        createdAt := existing.createdAt }
    .ok (updated, { s with collections := mapSet s.collections id updated })

end InMemoryStorage

/-! ## Fresh identifiers (model of `uuidv4()`) -/

/-- Decimal digit to character. -/
def digitChar (d : Nat) : Char :=
  Char.ofNat (48 + d)

/-- Character back to decimal digit. -/
def digitVal (c : Char) : Nat :=
  c.toNat - 48

/-- Little-endian decimal digits, with a fuel argument so the recursion is
structural (the fuel never runs out when `n ≤ fuel`). -/
def natDigitsAux : Nat → Nat → List Nat
  | 0, _ => []
  | fuel + 1, n =>
    if n = 0 then [] else (n % 10) :: natDigitsAux fuel (n / 10)

/-- Little-endian decimal digits of a natural number (empty for `0`). -/
def natDigitsRev (n : Nat) : List Nat :=
  natDigitsAux n n

/-- Value of a little-endian digit list. -/
def valDigits (l : List Nat) : Nat :=
  l.foldr (fun d acc => d + 10 * acc) 0

/-- The fresh-identifier supply standing for `uuidv4()`: the engine threads a
counter and renders it as a decimal string; `unFresh` below is a left
inverse, so distinct counters give distinct ids. -/
def freshId (n : Nat) : String :=
  ⟨'i' :: 'd' :: ((natDigitsRev n).reverse.map digitChar)⟩

/-- Left inverse of `freshId`. -/
def unFresh (s : String) : Nat :=
  valDigits (((s.data.drop 2).map digitVal).reverse)

/-! ## Orchestration engine (`src/engine/VocaEngine.ts`) -/

/-- One constructor per distinct `throw` site of `VocaEngine` and
`InMemoryStorage`. The spec's taxonomy maps onto these:
`ValidationError` = `emptyContent` / `emptyCollectionName`;
`NotFoundError` = the `…NotFound` constructors;
`ReferentialIntegrityError` = `suggestionMismatch`
("Suggestion does not belong to the specified input");
`ProviderError` = `providerFailure`
("Failed to generate suggestions: …"). -/
inductive EngineError where
  | inputNotFound (id : String)
  | suggestionNotFound (id : String)
  | collectionNotFound (id : String)
  | entryNotFound (id : String)
  | suggestionMismatch
  | emptyContent
  | emptyCollectionName
  | providerFailure (msg : String)
  | storeError (msg : String)
  deriving DecidableEq, Repr

/-- Engine state: the backing `InMemoryStorage` plus the fresh-id counter
standing for the `uuidv4()` source. -/
structure EngineState where
  store : StoreState
  nextId : Nat
  deriving DecidableEq, Repr

/-- Tag normalization of `VocaEngine.saveEntry` / `updateEntryTags`:
trim each tag, drop empties, keep first occurrences
(`arr.indexOf(tag) === index`). `seen` accumulates tags already kept. -/
def dedupFirstAux (seen : List String) : List String → List String
  | [] => []
  | t :: ts =>
    if seen.contains t then dedupFirstAux seen ts
    else t :: dedupFirstAux (t :: seen) ts

/-- First-occurrence de-duplication. -/
def dedupFirst (l : List String) : List String :=
  dedupFirstAux [] l

/-- `tags.map(trim).filter(nonempty).filter(firstOccurrence)` from
`VocaEngine.saveEntry` lines 249–254. -/
def cleanTags (tags : List String) : List String :=
  dedupFirst ((tags.map jsTrim).filter (fun t => t ≠ ""))

namespace VocaEngine

/-- The Provider seam: `llmProvider.generateVocabularySuggestions` either
throws (`.error`) or returns a candidate list. -/
def Provider : Type :=
  ExpressionInput → Except String (List String)

/-- `VocaEngine.addInput`: rejects content that is empty after trimming,
otherwise persists an `ExpressionInput` built from the trimmed content with
a fresh id. Every engine operation returns its result (or thrown error)
together with the storage state after the call, so a thrown error leaving
the store untouched is visible in the type. -/
def addInput (s : EngineState) (type : InputType) (content : String)
    (now : Nat) : Except EngineError ExpressionInput × EngineState :=
  if jsTrim content = "" then (.error .emptyContent, s)
  else
    let input : ExpressionInput :=
      { id := freshId s.nextId, type := type, content := jsTrim content
        createdAt := now }
    (.ok input,
      { store := { s.store with inputs := mapSet s.store.inputs input.id input }
        nextId := s.nextId + 1 })

/-- `VocaEngine.generateSuggestions`: `NotFoundError` outside the `try`
block; inside it, a provider failure and an empty candidate list are both
re-thrown as "Failed to generate suggestions: …". -/
def generateSuggestions (provider : Provider) (s : EngineState)
    (inputId : String) (now : Nat) :
    Except EngineError Suggestion × EngineState :=
  match mapGet s.store.inputs inputId with
  | none => (.error (.inputNotFound inputId), s)
  | some input =>
    match provider input with
    | .error e =>
      (.error (.providerFailure ("Failed to generate suggestions: " ++ e)), s)
    | .ok candidates =>
      if candidates.length = 0 then
        (.error (.providerFailure
          "Failed to generate suggestions: Error: No suggestions generated"), s)
      else
        let sugg : Suggestion :=
          { id := freshId s.nextId, inputId := inputId
            candidates := candidates, generatedAt := now }
        (.ok sugg,
          { store :=
              { s.store with
                suggestions := mapSet s.store.suggestions sugg.id sugg }
            nextId := s.nextId + 1 })

/-- `VocaEngine.createCollection`. -/
def createCollection (s : EngineState) (name : String) (now : Nat) :
    Except EngineError Collection × EngineState :=
  if jsTrim name = "" then (.error .emptyCollectionName, s)
  else
    let c : Collection :=
      { id := freshId s.nextId, name := jsTrim name, createdAt := now }
    (.ok c,
      { store :=
          { s.store with collections := mapSet s.store.collections c.id c }
        nextId := s.nextId + 1 })

/-- `VocaEngine.saveEntry`: resolves input, suggestion and collection in that
order, rejects a suggestion whose `inputId` is not the supplied input id,
normalizes the tags and persists a fresh `Entry`. The single store write
happens after every check has passed. -/
def saveEntry (s : EngineState) (inputId suggestionId collectionId : String)
    (tags : Option (List String)) (now : Nat) :
    Except EngineError Entry × EngineState :=
  match mapGet s.store.inputs inputId with
  | none => (.error (.inputNotFound inputId), s)
  | some input =>
    match mapGet s.store.suggestions suggestionId with
    | none => (.error (.suggestionNotFound suggestionId), s)
    | some suggestion =>
      match mapGet s.store.collections collectionId with
      | none => (.error (.collectionNotFound collectionId), s)
      | some _collection =>
        if suggestion.inputId ≠ inputId then (.error .suggestionMismatch, s)
        else
          let entry : Entry :=
            { id := freshId s.nextId, input := input
              suggestion := suggestion, collectionId := collectionId
              tags := cleanTags (tags.getD []), savedAt := now }
          (.ok entry,
            { store :=
                { s.store with entries := mapSet s.store.entries entry.id entry }
              nextId := s.nextId + 1 })

/-- `VocaEngine.listEntries`: NotFound when the collection is missing, else
the store's `listEntries`. -/
def listEntries (s : EngineState) (collectionId : String) :
    Except EngineError (List Entry) :=
  match mapGet s.store.collections collectionId with
  | none => .error (.collectionNotFound collectionId)
  | some _ => .ok (InMemoryStorage.listEntries s.store collectionId)

/-- `VocaEngine.searchEntries`: an empty-after-trim query delegates to
`listEntries`; otherwise the trimmed query is passed to the store with the
collection id. -/
def searchEntries (s : EngineState) (collectionId query : String) :
    Except EngineError (List Entry) :=
  if jsTrim query = "" then listEntries s collectionId
  else
    match mapGet s.store.collections collectionId with
    | none => .error (.collectionNotFound collectionId)
    | some _ =>
      .ok (InMemoryStorage.searchEntries s.store
        { collectionId := some collectionId, query := some (jsTrim query) })

/-- `VocaEngine.renameCollection`: validation and existence check, then the
store's `updateCollection` with a `{ name }` payload. -/
def renameCollection (s : EngineState) (collectionId newName : String) :
    Except EngineError Collection × EngineState :=
  if jsTrim newName = "" then (.error .emptyCollectionName, s)
  else
    match mapGet s.store.collections collectionId with
    | none => (.error (.collectionNotFound collectionId), s)
    | some _ =>
      match InMemoryStorage.updateCollection s.store collectionId
          { name := some (jsTrim newName) } with
      | .error m => (.error (.storeError m), s)
      | .ok (c, st) => (.ok c, { s with store := st })

/-- `VocaEngine.updateEntryTags`: NotFound on a missing entry, else rebuilds
the entry (same id) with cleaned tags and upserts it; the `Entry`
constructor stamps `savedAt = new Date()`. -/
def updateEntryTags (s : EngineState) (entryId : String)
    (tags : List String) (now : Nat) :
    Except EngineError Entry × EngineState :=
  match mapGet s.store.entries entryId with
  | none => (.error (.entryNotFound entryId), s)
  | some entry =>
    let updated : Entry :=
      { id := entry.id, input := entry.input, suggestion := entry.suggestion
        collectionId := entry.collectionId, tags := cleanTags tags
        savedAt := now }
    (.ok updated,
      { s with store :=
          { s.store with entries := mapSet s.store.entries updated.id updated } })

end VocaEngine

/-! ## `Date.prototype.toISOString` / `new Date(isoString)`

The model covers the standard `YYYY-MM-DDTHH:mm:ss.sssZ` format, i.e. UTC
timestamps from 1970-01-01 (epoch 0) up to year 9999; this is the range in
which every timestamp this system creates lives. The civil-calendar
conversion is the days-from-civil / civil-from-days pair used by date
libraries and JS engines. -/

/-- Milliseconds at 10000-01-01T00:00:00Z, the end of the modelled range. -/
def isoMax : Nat := 253402300800000

/-- Gregorian leap year. -/
def isLeap (y : Nat) : Bool :=
  (y % 4 = 0 && y % 100 ≠ 0) || y % 400 = 0

/-- Length of a year in days. -/
def daysInYear (y : Nat) : Nat :=
  if isLeap y then 366 else 365

/-- Length of month `m` (`1`–`12`; `0` elsewhere). -/
def monthLen (leap : Bool) (m : Nat) : Nat :=
  match m with
  | 1 => 31 | 2 => if leap then 29 else 28 | 3 => 31 | 4 => 30
  | 5 => 31 | 6 => 30 | 7 => 31 | 8 => 31 | 9 => 30 | 10 => 31
  | 11 => 30 | 12 => 31 | _ => 0

/-- Days of the year strictly before month `m`. -/
def monthStart (leap : Bool) : Nat → Nat
  | 0 => 0
  | m + 1 => monthStart leap m + monthLen leap m

/-- `yearStartAux k` = days from 1970-01-01 to `(1970 + k)`-01-01. -/
def yearStartAux : Nat → Nat
  | 0 => 0
  | k + 1 => yearStartAux k + daysInYear (1970 + k)

/-- Days from 1970-01-01 to `y`-01-01, for `y ≥ 1970`. -/
def yearStartDays (y : Nat) : Nat :=
  yearStartAux (y - 1970)

/-- Walk years forward from `y`, consuming whole years from `days`; the fuel
makes the recursion structural and never runs out when `days ≤ fuel`. -/
def yearFromDaysAux : Nat → Nat → Nat → Nat × Nat
  | 0, y, days => (y, days)
  | fuel + 1, y, days =>
    if days < daysInYear y then (y, days)
    else yearFromDaysAux fuel (y + 1) (days - daysInYear y)

/-- Walk months forward from `m`, consuming whole months from the
day-of-year `doy`; 11 steps of fuel reach December from January. -/
def monthFromDoyAux (leap : Bool) : Nat → Nat → Nat → Nat × Nat
  | 0, m, doy => (m, doy)
  | fuel + 1, m, doy =>
    if doy < monthLen leap m then (m, doy)
    else monthFromDoyAux leap fuel (m + 1) (doy - monthLen leap m)

/-- Gregorian date `(year, month, day)` of day number `days`
(days since 1970-01-01). -/
def civilFromDays (days : Nat) : Nat × Nat × Nat :=
  ((yearFromDaysAux (days + 1) 1970 days).1,
   (monthFromDoyAux (isLeap (yearFromDaysAux (days + 1) 1970 days).1) 11 1
      (yearFromDaysAux (days + 1) 1970 days).2).1,
   (monthFromDoyAux (isLeap (yearFromDaysAux (days + 1) 1970 days).1) 11 1
      (yearFromDaysAux (days + 1) 1970 days).2).2 + 1)

/-- Day number (days since 1970-01-01) of a Gregorian date, `y ≥ 1970`. -/
def daysFromCivil (y m d : Nat) : Nat :=
  yearStartDays y + monthStart (isLeap y) m + (d - 1)

/-- Two decimal digits, zero padded. -/
def pad2 (n : Nat) : List Char :=
  [digitChar (n / 10 % 10), digitChar (n % 10)]

/-- Three decimal digits, zero padded. -/
def pad3 (n : Nat) : List Char :=
  [digitChar (n / 100 % 10), digitChar (n / 10 % 10), digitChar (n % 10)]

/-- Four decimal digits, zero padded. -/
def pad4 (n : Nat) : List Char :=
  [digitChar (n / 1000 % 10), digitChar (n / 100 % 10),
   digitChar (n / 10 % 10), digitChar (n % 10)]

/-- `Date.prototype.toISOString`: `YYYY-MM-DDTHH:mm:ss.sssZ` in UTC, with
millisecond precision. -/
def toISOString (t : Nat) : String :=
  let c := civilFromDays (t / 86400000)
  ⟨pad4 c.1 ++ '-' :: pad2 c.2.1 ++ '-' :: pad2 c.2.2 ++
   'T' :: pad2 (t / 3600000 % 24) ++ ':' :: pad2 (t / 60000 % 60) ++
   ':' :: pad2 (t / 1000 % 60) ++ '.' :: pad3 (t % 1000) ++ ['Z']⟩

/-- Decimal digit test. -/
def isDig (c : Char) : Bool :=
  48 ≤ c.toNat && c.toNat ≤ 57

/-- `new Date(s)` on an ISO string in the modelled range: returns the epoch
milliseconds, or `none` (the Invalid Date) when the string is not a
well-formed in-range timestamp. -/
def parseIso (s : String) : Option Nat :=
  match s.data with
  | [y1, y2, y3, y4, a1, mo1, mo2, a2, d1, d2, a3, h1, h2, a4,
     mi1, mi2, a5, se1, se2, a6, x1, x2, x3, a7] =>
    if a1 = '-' && a2 = '-' && a3 = 'T' && a4 = ':' && a5 = ':' &&
        a6 = '.' && a7 = 'Z' &&
        isDig y1 && isDig y2 && isDig y3 && isDig y4 &&
        isDig mo1 && isDig mo2 && isDig d1 && isDig d2 &&
        isDig h1 && isDig h2 && isDig mi1 && isDig mi2 &&
        isDig se1 && isDig se2 && isDig x1 && isDig x2 && isDig x3 then
      let y := 1000 * digitVal y1 + 100 * digitVal y2 +
        10 * digitVal y3 + digitVal y4
      let m := 10 * digitVal mo1 + digitVal mo2
      let d := 10 * digitVal d1 + digitVal d2
      let h := 10 * digitVal h1 + digitVal h2
      let mi := 10 * digitVal mi1 + digitVal mi2
      let se := 10 * digitVal se1 + digitVal se2
      let ms := 100 * digitVal x1 + 10 * digitVal x2 + digitVal x3
      if 1970 ≤ y && 1 ≤ m && m ≤ 12 && 1 ≤ d && d ≤ 31 &&
          h ≤ 23 && mi ≤ 59 && se ≤ 59 then
        some (daysFromCivil y m d * 86400000 + h * 3600000 +
          mi * 60000 + se * 1000 + ms)
      else none
    else none
  | _ => none

/-! ## Serialized forms (`toJSON` / `fromJSON` of each model class)

Each `toJSON` produces the flat field map the source builds; only the
entity's own timestamp is rendered as an ISO string — `Entry.toJSON` embeds
the `input` and `suggestion` objects as they are. `fromJSON` mirrors the
source constructors, with `none` standing for the Invalid Date produced by
`new Date(badString)`. -/

/-- Serialized `ExpressionInput`. -/
structure InputJSON where
  id : String
  type : InputType
  content : String
  createdAt : String
  deriving DecidableEq, Repr

/-- `ExpressionInput.toJSON`. -/
def ExpressionInput.toJSON (e : ExpressionInput) : InputJSON :=
  { id := e.id, type := e.type, content := e.content
    createdAt := toISOString e.createdAt }

/-- `ExpressionInput.fromJSON`. -/
def ExpressionInput.fromJSON (j : InputJSON) : Option ExpressionInput :=
  (parseIso j.createdAt).map fun t =>
    { id := j.id, type := j.type, content := j.content, createdAt := t }

/-- Serialized `Suggestion`. -/
structure SuggestionJSON where
  id : String
  inputId : String
  candidates : List String
  generatedAt : String
  deriving DecidableEq, Repr

/-- `Suggestion.toJSON`. -/
def Suggestion.toJSON (s : Suggestion) : SuggestionJSON :=
  { id := s.id, inputId := s.inputId, candidates := s.candidates
    generatedAt := toISOString s.generatedAt }

/-- `Suggestion.fromJSON`. -/
def Suggestion.fromJSON (j : SuggestionJSON) : Option Suggestion :=
  (parseIso j.generatedAt).map fun t =>
    { id := j.id, inputId := j.inputId, candidates := j.candidates
      generatedAt := t }

/-- Serialized `Collection`. -/
structure CollectionJSON where
  id : String
  name : String
  createdAt : String
  deriving DecidableEq, Repr

/-- `Collection.toJSON`. -/
def Collection.toJSON (c : Collection) : CollectionJSON :=
  { id := c.id, name := c.name, createdAt := toISOString c.createdAt }

/-- `Collection.fromJSON`. -/
def Collection.fromJSON (j : CollectionJSON) : Option Collection :=
  (parseIso j.createdAt).map fun t =>
    { id := j.id, name := j.name, createdAt := t }

/-- Serialized `Entry`: `input` and `suggestion` are embedded verbatim
(`src/models/Entry.ts` `toJSON` stores `this.input`, `this.suggestion`
without converting them). -/
structure EntryJSON where
  id : String
  input : ExpressionInput
  suggestion : Suggestion
  collectionId : String
  tags : List String
  savedAt : String
  deriving DecidableEq, Repr

/-- `Entry.toJSON`. -/
def Entry.toJSON (e : Entry) : EntryJSON :=
  { id := e.id, input := e.input, suggestion := e.suggestion
    collectionId := e.collectionId, tags := e.tags
    savedAt := toISOString e.savedAt }

/-- `Entry.fromJSON`. -/
def Entry.fromJSON (j : EntryJSON) : Option Entry :=
  (parseIso j.savedAt).map fun t =>
    { id := j.id, input := j.input, suggestion := j.suggestion
      collectionId := j.collectionId, tags := j.tags, savedAt := t }


/-! ## The spec's wording of the search procedure (§4.2) -/

/-- The search procedure exactly as the spec (and claim C1) words it: each
optional stage applies whenever its field is supplied, `limit` is honoured
as given (defaulting to the remaining count), stages run in order, then the
survivors are sorted by `savedAt` descending and sliced. To be compared
with `InMemoryStorage.searchEntries` above, which was translated from the
source. -/
def searchEntriesSpec (s : StoreState) (options : SearchOptions) :
    List Entry :=
  let r0 := mapValues s.entries
  let r1 :=
    match options.collectionId with
    | some cid => r0.filter (fun e => e.collectionId = cid)
    | none => r0
  let r2 :=
    match options.query with
    | some q =>
      if q ≠ "" then r1.filter (InMemoryStorage.entryMatches (jsLower q))
      else r1
    | none => r1
  let r3 :=
    match options.tags with
    | some tags =>
      if tags.length > 0 then
        r2.filter (fun e => tags.all (fun t => e.tags.contains t))
      else r2
    | none => r2
  let sorted := sortBySavedAtDesc r3
  (sorted.drop (options.offset.getD 0)).take (options.limit.getD sorted.length)

/-- The JS-truthiness normalization separating the source from the spec's
wording: an empty-string `collectionId` and a `limit` of `0` are falsy, so
the source treats them as absent. -/
def normalizeOptions (o : SearchOptions) : SearchOptions :=
  { o with
    collectionId := match o.collectionId with
      | some "" => none
      | x => x
    limit := match o.limit with
      | some 0 => none
      | x => x }

/-! ## Concrete fixtures used by the itemized checks -/

/-- A stored input. -/
def exInput : ExpressionInput :=
  { id := "i1", type := .Expression, content := "hello world"
    createdAt := 1000 }

/-- A suggestion belonging to `exInput`. -/
def exSuggestion : Suggestion :=
  { id := "s1", inputId := "i1", candidates := ["alpha", "beta"]
    generatedAt := 2000 }

/-- A suggestion whose `inputId` does not match `exInput`. -/
def exSuggestionOther : Suggestion :=
  { id := "s2", inputId := "i9", candidates := ["gamma"], generatedAt := 2000 }

/-- A stored collection. -/
def exCollection : Collection :=
  { id := "c1", name := "C1", createdAt := 500 }

/-- A stored entry. -/
def exEntry : Entry :=
  { id := "e1", input := exInput, suggestion := exSuggestion
    collectionId := "c1", tags := ["x"], savedAt := 3000 }

/-- A store populated with the fixtures above. -/
def exStore : StoreState :=
  { inputs := [("i1", exInput)]
    suggestions := [("s1", exSuggestion), ("s2", exSuggestionOther)]
    collections := [("c1", exCollection)]
    entries := [("e1", exEntry)] }

/-- An engine over `exStore`. -/
def exEngine : EngineState :=
  { store := exStore, nextId := 7 }

/-- The entry produced by `VocaEngine.saveEntry exEngine "i1" "s1" "c1"
(some ["x","x","y"]) 42`. -/
def exSavedEntry : Entry :=
  { id := "id7", input := exInput, suggestion := exSuggestion
    collectionId := "c1", tags := ["x", "y"], savedAt := 42 }

/-- A deterministic provider stub. -/
def exProvider : VocaEngine.Provider :=
  fun _ => .ok ["alpha", "beta"]

/-- A provider stub that throws. -/
def exProviderFail : VocaEngine.Provider :=
  fun _ => .error "boom"

/-! ## Correctness of the calendar conversion and the ISO round trip -/
theorem yearStartAux_closed (k : Nat) :
    yearStartAux k = 365 * k + (k + 1) / 4 - (k + 69) / 100 + (k + 369) / 400 := by
  induction k with
  | zero => rfl
  | succ k ih =>
    simp only [yearStartAux, ih, daysInYear, isLeap, Bool.or_eq_true, Bool.and_eq_true,
      decide_eq_true_eq, bne_iff_ne, ne_eq]
    split_ifs <;> omega

theorem daysInYear_ge (y : Nat) : 365 ≤ daysInYear y := by
  simp only [daysInYear]
  split_ifs <;> omega

theorem yearStartDays_succ (y : Nat) (h : 1970 ≤ y) :
    yearStartDays (y + 1) = yearStartDays y + daysInYear y := by
  have h1 : y + 1 - 1970 = (y - 1970) + 1 := by omega
  have h2 : 1970 + (y - 1970) = y := by omega
  unfold yearStartDays
  rw [h1]
  show yearStartAux (y - 1970) + daysInYear (1970 + (y - 1970)) = _
  rw [h2]

theorem yearFromDaysAux_correct (fuel : Nat) : ∀ y days, 1970 ≤ y → days ≤ fuel →
    yearStartDays (yearFromDaysAux fuel y days).1 + (yearFromDaysAux fuel y days).2
      = yearStartDays y + days ∧
    (yearFromDaysAux fuel y days).2 < daysInYear (yearFromDaysAux fuel y days).1 ∧
    y ≤ (yearFromDaysAux fuel y days).1 := by
  induction fuel with
  | zero =>
    intro y days hy hd
    have h365 := daysInYear_ge y
    have hz : days = 0 := by omega
    subst hz
    refine ⟨rfl, ?_, le_refl y⟩
    show (0 : Nat) < daysInYear y
    omega
  | succ fuel ih =>
    intro y days hy hd
    by_cases h : days < daysInYear y
    · have hgoal : yearFromDaysAux (fuel + 1) y days = (y, days) := by
        simp [yearFromDaysAux, h]
      rw [hgoal]
      exact ⟨rfl, h, le_refl y⟩
    · have hgoal : yearFromDaysAux (fuel + 1) y days
          = yearFromDaysAux fuel (y + 1) (days - daysInYear y) := by
        simp [yearFromDaysAux, h]
      rw [hgoal]
      have h365 := daysInYear_ge y
      obtain ⟨e1, e2, e3⟩ := ih (y + 1) (days - daysInYear y) (by omega) (by omega)
      have hsucc := yearStartDays_succ y hy
      exact ⟨by omega, e2, by omega⟩

theorem monthFromDoy_correct : ∀ (leap : Bool), ∀ doy,
    doy < (if leap then 366 else 365) →
    monthStart leap (monthFromDoyAux leap 11 1 doy).1 + (monthFromDoyAux leap 11 1 doy).2 = doy ∧
    (monthFromDoyAux leap 11 1 doy).2 < monthLen leap (monthFromDoyAux leap 11 1 doy).1 ∧
    1 ≤ (monthFromDoyAux leap 11 1 doy).1 ∧ (monthFromDoyAux leap 11 1 doy).1 ≤ 12 := by
  have ht : ∀ doy, doy < 366 →
      monthStart true (monthFromDoyAux true 11 1 doy).1 + (monthFromDoyAux true 11 1 doy).2 = doy ∧
      (monthFromDoyAux true 11 1 doy).2 < monthLen true (monthFromDoyAux true 11 1 doy).1 ∧
      1 ≤ (monthFromDoyAux true 11 1 doy).1 ∧ (monthFromDoyAux true 11 1 doy).1 ≤ 12 := by
    set_option maxRecDepth 4000 in decide
  have hf : ∀ doy, doy < 365 →
      monthStart false (monthFromDoyAux false 11 1 doy).1 + (monthFromDoyAux false 11 1 doy).2 = doy ∧
      (monthFromDoyAux false 11 1 doy).2 < monthLen false (monthFromDoyAux false 11 1 doy).1 ∧
      1 ≤ (monthFromDoyAux false 11 1 doy).1 ∧ (monthFromDoyAux false 11 1 doy).1 ≤ 12 := by
    set_option maxRecDepth 4000 in decide
  intro leap doy h
  cases leap
  · exact hf doy (by simpa using h)
  · exact ht doy (by simpa using h)

theorem monthLen_le31 : ∀ (leap : Bool), ∀ m, m < 13 → monthLen leap m ≤ 31 := by decide

theorem civilFromDays_correct (days : Nat) (h : days < 2932897) :
    1970 ≤ (civilFromDays days).1 ∧ (civilFromDays days).1 ≤ 9999 ∧
    1 ≤ (civilFromDays days).2.1 ∧ (civilFromDays days).2.1 ≤ 12 ∧
    1 ≤ (civilFromDays days).2.2 ∧ (civilFromDays days).2.2 ≤ 31 ∧
    daysFromCivil (civilFromDays days).1 (civilFromDays days).2.1 (civilFromDays days).2.2
      = days := by
  obtain ⟨e1, e2, e3⟩ := yearFromDaysAux_correct (days + 1) 1970 days (le_refl _) (by omega)
  have hys0 : yearStartDays 1970 = 0 := rfl
  rw [hys0] at e1
  have hyle : (yearFromDaysAux (days + 1) 1970 days).1 ≤ 9999 := by
    by_contra hgt
    push_neg at hgt
    have hmono : 2932897 ≤ yearStartDays (yearFromDaysAux (days + 1) 1970 days).1 := by
      unfold yearStartDays
      rw [yearStartAux_closed]
      omega
    omega
  obtain ⟨m1, m2, m3, m4⟩ :=
    monthFromDoy_correct (isLeap (yearFromDaysAux (days + 1) 1970 days).1)
      (yearFromDaysAux (days + 1) 1970 days).2
      (by simpa [daysInYear] using e2)
  have hmlen := monthLen_le31 (isLeap (yearFromDaysAux (days + 1) 1970 days).1)
    (monthFromDoyAux (isLeap (yearFromDaysAux (days + 1) 1970 days).1) 11 1
      (yearFromDaysAux (days + 1) 1970 days).2).1 (by omega)
  simp only [civilFromDays, daysFromCivil]
  refine ⟨e3, hyle, by omega, by omega, by omega, by omega, by omega⟩

theorem isDig_digitChar_mod (n : Nat) : isDig (digitChar (n % 10)) = true := by
  have h : n % 10 < 10 := Nat.mod_lt _ (by omega)
  revert h
  generalize n % 10 = k
  revert k
  decide

theorem digitVal_digitChar_mod (n : Nat) : digitVal (digitChar (n % 10)) = n % 10 := by
  have h : n % 10 < 10 := Nat.mod_lt _ (by omega)
  revert h
  generalize n % 10 = k
  revert k
  decide

theorem parseIso_toISOString (t : Nat) (h : t < isoMax) :
    parseIso (toISOString t) = some t := by
  have hdays : t / 86400000 < 2932897 := by
    simp only [isoMax] at h
    omega
  obtain ⟨b1, b2, b3, b4, b5, b6, b7⟩ := civilFromDays_correct (t / 86400000) hdays
  simp only [toISOString, pad4, pad2, pad3, List.cons_append, List.nil_append, parseIso]
  simp only [isDig_digitChar_mod, digitVal_digitChar_mod]
  have hYr : 1000 * ((civilFromDays (t / 86400000)).1 / 1000 % 10) +
      100 * ((civilFromDays (t / 86400000)).1 / 100 % 10) +
      10 * ((civilFromDays (t / 86400000)).1 / 10 % 10) +
      (civilFromDays (t / 86400000)).1 % 10 = (civilFromDays (t / 86400000)).1 := by omega
  have hMr : 10 * ((civilFromDays (t / 86400000)).2.1 / 10 % 10) +
      (civilFromDays (t / 86400000)).2.1 % 10 = (civilFromDays (t / 86400000)).2.1 := by omega
  have hDr : 10 * ((civilFromDays (t / 86400000)).2.2 / 10 % 10) +
      (civilFromDays (t / 86400000)).2.2 % 10 = (civilFromDays (t / 86400000)).2.2 := by omega
  have hHr : 10 * (t / 3600000 % 24 / 10 % 10) + t / 3600000 % 24 % 10 = t / 3600000 % 24 := by
    omega
  have hMir : 10 * (t / 60000 % 60 / 10 % 10) + t / 60000 % 60 % 10 = t / 60000 % 60 := by omega
  have hSer : 10 * (t / 1000 % 60 / 10 % 10) + t / 1000 % 60 % 10 = t / 1000 % 60 := by omega
  have hMsr : 100 * (t % 1000 / 100 % 10) + 10 * (t % 1000 / 10 % 10) + t % 1000 % 10
      = t % 1000 := by omega
  rw [hYr, hMr, hDr, hHr, hMir, hSer, hMsr, b7]
  rw [decide_eq_true b1, decide_eq_true b3, decide_eq_true b4, decide_eq_true b5,
    decide_eq_true b6, decide_eq_true (show t / 3600000 % 24 ≤ 23 by omega),
    decide_eq_true (show t / 60000 % 60 ≤ 59 by omega),
    decide_eq_true (show t / 1000 % 60 ≤ 59 by omega)]
  simp only [decide_True, Bool.and_self, Bool.and_true, Bool.true_and, if_true]
  simp only [Option.some.injEq]
  omega


/-! ## String, identifier and tag-normalization lemmas -/
theorem trimChars_eq_rdrop (l : List Char) :
    trimChars l = List.rdropWhile isJsWs (List.dropWhile isJsWs l) := rfl

theorem trimChars_idem (l : List Char) : trimChars (trimChars l) = trimChars l := by
  rw [trimChars_eq_rdrop, trimChars_eq_rdrop]
  have key : List.dropWhile isJsWs (List.rdropWhile isJsWs (List.dropWhile isJsWs l))
      = List.rdropWhile isJsWs (List.dropWhile isJsWs l) := by
    obtain ⟨t, ht⟩ : ∃ t, List.rdropWhile isJsWs (List.dropWhile isJsWs l) ++ t
        = List.dropWhile isJsWs l := by
      refine ⟨(List.takeWhile isJsWs (List.dropWhile isJsWs l).reverse).reverse, ?_⟩
      rw [List.rdropWhile, ← List.reverse_append, List.takeWhile_append_dropWhile,
        List.reverse_reverse]
    rcases hX : List.rdropWhile isJsWs (List.dropWhile isJsWs l) with _ | ⟨c, X⟩
    · rfl
    · rw [hX] at ht
      have hqne : List.dropWhile isJsWs l ≠ [] := by
        rw [← ht]
        simp
    
      have hhead := List.head_dropWhile_not isJsWs l hqne
      have hch : (List.dropWhile isJsWs l).head? = some c := by
        rw [← ht]
        simp
      have hceq : (List.dropWhile isJsWs l).head hqne = c := by
        have h9 := List.head?_eq_head (l := List.dropWhile isJsWs l) hqne
        rw [hch] at h9
        exact (Option.some.injEq _ _ ▸ h9).symm
      rw [hceq] at hhead
      rw [List.dropWhile_cons, hhead]
      simp
  rw [key, List.rdropWhile_idempotent]

theorem jsTrim_idem (s : String) : jsTrim (jsTrim s) = jsTrim s :=
  congrArg String.mk (trimChars_idem s.data)

theorem jsTrim_eq_empty (s : String) (h : ∀ c ∈ s.data, isJsWs c = true) :
    jsTrim s = "" := by
  have h1 : List.dropWhile isJsWs s.data = [] :=
    List.dropWhile_eq_nil_iff.mpr (by simpa using h)
  unfold jsTrim trimChars
  rw [h1]
  rfl

theorem valDigits_cons (d : Nat) (l : List Nat) :
    valDigits (d :: l) = d + 10 * valDigits l := rfl

theorem natDigitsAux_lt10 (fuel : Nat) : ∀ n d, d ∈ natDigitsAux fuel n → d < 10 := by
  induction fuel with
  | zero =>
    intro n d h
    simp [natDigitsAux] at h
  | succ fuel ih =>
    intro n d h
    by_cases hz : n = 0
    · subst hz
      simp [natDigitsAux] at h
    · rw [show natDigitsAux (fuel + 1) n = (n % 10) :: natDigitsAux fuel (n / 10) by
        simp [natDigitsAux, hz]] at h
      rcases List.mem_cons.mp h with rfl | hmem
      · omega
      · exact ih (n / 10) d hmem

theorem valDigits_natDigitsAux (fuel : Nat) : ∀ n, n ≤ fuel →
    valDigits (natDigitsAux fuel n) = n := by
  induction fuel with
  | zero =>
    intro n h
    have hz : n = 0 := by omega
    subst hz
    rfl
  | succ fuel ih =>
    intro n h
    by_cases hz : n = 0
    · subst hz
      rfl
    · rw [show natDigitsAux (fuel + 1) n = (n % 10) :: natDigitsAux fuel (n / 10) by
        simp [natDigitsAux, hz]]
      rw [valDigits_cons, ih (n / 10) (by omega)]
      omega

theorem digitVal_digitChar (d : Nat) (h : d < 10) : digitVal (digitChar d) = d :=
  (by decide : ∀ d', d' < 10 → digitVal (digitChar d') = d') d h

theorem map_digitVal_digitChar (l : List Nat) (h : ∀ d ∈ l, d < 10) :
    (l.map digitChar).map digitVal = l := by
  induction l with
  | nil => rfl
  | cons d l ih =>
    simp only [List.map_cons]
    rw [digitVal_digitChar d (h d (by simp)), ih (fun x hx => h x (by simp [hx]))]

theorem unFresh_freshId (n : Nat) : unFresh (freshId n) = n := by
  show valDigits ((((('i' :: 'd' :: ((natDigitsRev n).reverse.map digitChar)).drop 2).map
    digitVal)).reverse) = n
  show valDigits (((((natDigitsRev n).reverse.map digitChar)).map digitVal)).reverse = n
  rw [List.map_reverse, List.map_reverse, List.reverse_reverse]
  unfold natDigitsRev
  rw [map_digitVal_digitChar _ (natDigitsAux_lt10 n n), valDigits_natDigitsAux n n (le_refl n)]

theorem freshId_inj {a b : Nat} (h : freshId a = freshId b) : a = b := by
  have h2 := congrArg unFresh h
  rwa [unFresh_freshId, unFresh_freshId] at h2

theorem mem_dedupFirstAux : ∀ (l seen : List String) (x : String),
    x ∈ dedupFirstAux seen l → x ∈ l ∧ x ∉ seen := by
  intro l
  induction l with
  | nil =>
    intro seen x h
    simp [dedupFirstAux] at h
  | cons t ts ih =>
    intro seen x h
    by_cases hc : seen.contains t
    · rw [dedupFirstAux, if_pos hc] at h
      obtain ⟨h1, h2⟩ := ih seen x h
      exact ⟨List.mem_cons_of_mem _ h1, h2⟩
    · rw [dedupFirstAux, if_neg hc] at h
      rcases List.mem_cons.mp h with rfl | hmem
      · refine ⟨List.mem_cons_self _ _, fun hx => hc ?_⟩
        simpa [List.contains] using hx
      · obtain ⟨h1, h2⟩ := ih (t :: seen) x hmem
        exact ⟨List.mem_cons_of_mem _ h1, fun hx => h2 (List.mem_cons_of_mem _ hx)⟩

theorem dedupFirstAux_nodup : ∀ (l seen : List String), (dedupFirstAux seen l).Nodup := by
  intro l
  induction l with
  | nil =>
    intro seen
    simp [dedupFirstAux]
  | cons t ts ih =>
    intro seen
    by_cases hc : seen.contains t
    · rw [dedupFirstAux, if_pos hc]
      exact ih seen
    · rw [dedupFirstAux, if_neg hc]
      refine List.nodup_cons.mpr ⟨fun hmem => ?_, ih (t :: seen)⟩
      obtain ⟨_, h2⟩ := mem_dedupFirstAux ts (t :: seen) t hmem
      exact h2 (List.mem_cons_self _ _)

theorem cleanTags_clean (ts : List String) :
    (∀ t ∈ cleanTags ts, jsTrim t = t ∧ t ≠ "") ∧ (cleanTags ts).Nodup := by
  constructor
  · intro t ht
    rw [cleanTags, dedupFirst] at ht
    obtain ⟨h1, _⟩ := mem_dedupFirstAux _ [] t ht
    rw [List.mem_filter] at h1
    obtain ⟨hmap, hne⟩ := h1
    obtain ⟨u, _, rfl⟩ := List.mem_map.mp hmap
    refine ⟨jsTrim_idem u, ?_⟩
    simpa using hne
  · exact dedupFirstAux_nodup _ []


/-! ## Itemized checks of the specified properties -/
theorem mapGet_mapSet {α : Type} (m : List (String × α)) (k : String) (v : α) :
    mapGet (mapSet m k v) k = some v := by
  induction m with
  | nil => simp [mapSet, mapGet]
  | cons p rest ih =>
    obtain ⟨k', v'⟩ := p
    by_cases h : k' = k
    · subst h
      simp [mapSet, mapGet]
    · simp [mapSet, mapGet, h, ih]

/-- C2: with an empty query the engine's `searchEntries` delegates to
`listEntries`, so for every resolving collection id the two return the same
ordered result. -/
theorem searchEntries_empty_query_eq_listEntries (s : EngineState) (cid : String)
    (c : Collection) (_h : mapGet s.store.collections cid = some c) :
    VocaEngine.searchEntries s cid "" = VocaEngine.listEntries s cid := by
  unfold VocaEngine.searchEntries
  rw [if_pos (show jsTrim "" = "" from rfl)]

theorem searchEntries_empty_query_witness :
    mapGet exEngine.store.collections "c1" = some exCollection ∧
    VocaEngine.searchEntries exEngine "c1" "" = VocaEngine.listEntries exEngine "c1" :=
  ⟨by decide, searchEntries_empty_query_eq_listEntries exEngine "c1" exCollection (by decide)⟩

/-- C10: the engine trims the query before deciding: a whitespace-only query
behaves exactly like `listEntries`, and a query that is non-empty after
trimming is passed to the store trimmed. -/
theorem searchEntries_trims_query (s : EngineState) (cid q : String)
    (c : Collection) (hc : mapGet s.store.collections cid = some c) :
    ((∀ ch ∈ q.data, isJsWs ch = true) →
      VocaEngine.searchEntries s cid q = VocaEngine.listEntries s cid) ∧
    (jsTrim q ≠ "" →
      VocaEngine.searchEntries s cid q =
        .ok (InMemoryStorage.searchEntries s.store
          { collectionId := some cid, query := some (jsTrim q) })) := by
  constructor
  · intro hws
    unfold VocaEngine.searchEntries
    rw [if_pos (jsTrim_eq_empty q hws)]
  · intro hne
    unfold VocaEngine.searchEntries
    rw [if_neg hne, hc]

theorem searchEntries_trims_query_witness :
    (∀ ch ∈ ("  " : String).data, isJsWs ch = true) ∧
    VocaEngine.searchEntries exEngine "c1" "  " = VocaEngine.listEntries exEngine "c1" ∧
    jsTrim " hello " ≠ "" ∧
    VocaEngine.searchEntries exEngine "c1" " hello " =
      .ok (InMemoryStorage.searchEntries exEngine.store
        { collectionId := some "c1", query := some (jsTrim " hello ") }) :=
  ⟨by decide,
   (searchEntries_trims_query exEngine "c1" "  " exCollection (by decide)).1 (by decide),
   by decide,
   (searchEntries_trims_query exEngine "c1" " hello " exCollection (by decide)).2 (by decide)⟩

/-- C3: when input, suggestion and collection all resolve but the
suggestion's `inputId` differs from the supplied input id, `saveEntry`
throws the referential-integrity error
("Suggestion does not belong to the specified input"). -/
theorem saveEntry_mismatch_error (s : EngineState)
    (inputId suggId collId : String) (tags : Option (List String)) (now : Nat)
    (input : ExpressionInput) (sugg : Suggestion) (coll : Collection)
    (hi : mapGet s.store.inputs inputId = some input)
    (hs : mapGet s.store.suggestions suggId = some sugg)
    (hc : mapGet s.store.collections collId = some coll)
    (hne : sugg.inputId ≠ inputId) :
    (VocaEngine.saveEntry s inputId suggId collId tags now).1
      = .error .suggestionMismatch := by
  unfold VocaEngine.saveEntry
  simp only [hi, hs, hc]
  rw [if_pos hne]

theorem saveEntry_mismatch_error_witness :
    mapGet exEngine.store.inputs "i1" = some exInput ∧
    mapGet exEngine.store.suggestions "s2" = some exSuggestionOther ∧
    mapGet exEngine.store.collections "c1" = some exCollection ∧
    exSuggestionOther.inputId ≠ "i1" ∧
    (VocaEngine.saveEntry exEngine "i1" "s2" "c1" none 42).1
      = .error .suggestionMismatch :=
  ⟨by decide, by decide, by decide, by decide,
   saveEntry_mismatch_error exEngine "i1" "s2" "c1" none 42 exInput
     exSuggestionOther exCollection (by decide) (by decide) (by decide) (by decide)⟩

/-- C9: a failing `saveEntry` leaves the engine state (in particular the
store's entry map) exactly as it was: every validation precedes the single
store write. -/
theorem saveEntry_atomic (s : EngineState) (inputId suggId collId : String)
    (tags : Option (List String)) (now : Nat) (err : EngineError)
    (h : (VocaEngine.saveEntry s inputId suggId collId tags now).1 = .error err) :
    (VocaEngine.saveEntry s inputId suggId collId tags now).2 = s ∧
    (VocaEngine.saveEntry s inputId suggId collId tags now).2.store.entries
      = s.store.entries := by
  unfold VocaEngine.saveEntry at h ⊢
  cases h1 : mapGet s.store.inputs inputId with
  | none =>
    simp [h1]
  | some input =>
    simp only [h1] at h ⊢
    cases h2 : mapGet s.store.suggestions suggId with
    | none =>
      simp [h2]
    | some sugg =>
      simp only [h2] at h ⊢
      cases h3 : mapGet s.store.collections collId with
      | none =>
        simp [h3]
      | some coll =>
        simp only [h3] at h ⊢
        by_cases h4 : sugg.inputId ≠ inputId
        · rw [if_pos h4]
          exact ⟨rfl, rfl⟩
        · rw [if_neg h4] at h
          simp at h

theorem saveEntry_atomic_witness :
    (VocaEngine.saveEntry exEngine "i1" "s2" "c1" none 42).1
      = .error .suggestionMismatch ∧
    (VocaEngine.saveEntry exEngine "i1" "s2" "c1" none 42).2 = exEngine ∧
    (VocaEngine.saveEntry exEngine "i1" "s2" "c1" none 42).2.store.entries
      = exEngine.store.entries :=
  ⟨by rfl,
   (saveEntry_atomic exEngine "i1" "s2" "c1" none 42 .suggestionMismatch (by rfl)).1,
   (saveEntry_atomic exEngine "i1" "s2" "c1" none 42 .suggestionMismatch (by rfl)).2⟩

/-- C5 (failing part, evaluated at a concrete input): the `Collection.rename`
builder keeps the id but rebuilds the record through the constructor, which
stamps `createdAt` with the current time — the original `createdAt` (500) is
lost and replaced by the rename-time clock (4000). -/
theorem rename_builder_resets_createdAt :
    (Collection.rename exCollection "renamed" 4000).id = exCollection.id ∧
    exCollection.createdAt = 500 ∧
    (Collection.rename exCollection "renamed" 4000).createdAt = 4000 ∧
    (Collection.rename exCollection "renamed" 4000).createdAt
      ≠ exCollection.createdAt := by
  decide

/-- C8: `addInput` rejects whitespace-only content with the validation
error, and otherwise persists an input whose `content` is the trimmed
argument and whose id is fresh; two consecutive successful calls always
return distinct ids. -/
theorem addInput_contract (s : EngineState) (type : InputType)
    (content : String) (now : Nat) :
    (jsTrim content = "" →
      VocaEngine.addInput s type content now = (.error .emptyContent, s)) ∧
    (jsTrim content ≠ "" →
      ∃ inp, (VocaEngine.addInput s type content now).1 = .ok inp ∧
        inp.content = jsTrim content ∧ inp.id = freshId s.nextId ∧
        (VocaEngine.addInput s type content now).2.nextId = s.nextId + 1) ∧
    (∀ type₂ content₂ now₂ inp inp₂,
      (VocaEngine.addInput s type content now).1 = .ok inp →
      (VocaEngine.addInput (VocaEngine.addInput s type content now).2
          type₂ content₂ now₂).1 = .ok inp₂ →
      inp.id ≠ inp₂.id) := by
  refine ⟨?_, ?_, ?_⟩
  · intro h
    unfold VocaEngine.addInput
    rw [if_pos h]
  · intro h
    unfold VocaEngine.addInput
    rw [if_neg h]
    exact ⟨_, rfl, rfl, rfl, rfl⟩
  · intro type₂ content₂ now₂ inp inp₂ h1 h2
    by_cases hc1 : jsTrim content = ""
    · unfold VocaEngine.addInput at h1
      rw [if_pos hc1] at h1
      simp at h1
    · unfold VocaEngine.addInput at h1 h2
      rw [if_neg hc1] at h1 h2
      by_cases hc2 : jsTrim content₂ = ""
      · rw [if_pos hc2] at h2
        simp at h2
      · rw [if_neg hc2] at h2
        simp only [Except.ok.injEq] at h1 h2
        intro heq
        rw [← h1, ← h2] at heq
        have := freshId_inj heq
        omega

theorem addInput_contract_witness :
    jsTrim "  test  " ≠ "" ∧
    (∃ inp, (VocaEngine.addInput exEngine .Expression "  test  " 50).1 = .ok inp ∧
      inp.content = jsTrim "  test  " ∧ inp.id = freshId exEngine.nextId ∧
      (VocaEngine.addInput exEngine .Expression "  test  " 50).2.nextId
        = exEngine.nextId + 1) :=
  ⟨by decide, (addInput_contract exEngine .Expression "  test  " 50).2.1 (by decide)⟩

/-- C7: `generateSuggestions` throws NotFound when the input id does not
resolve; a provider that throws or returns no candidates yields the
provider error; otherwise the new suggestion references the input, carries
the provider's non-empty candidates and is persisted. -/
theorem generateSuggestions_contract (provider : VocaEngine.Provider)
    (s : EngineState) (inputId : String) (now : Nat) :
    (mapGet s.store.inputs inputId = none →
      VocaEngine.generateSuggestions provider s inputId now
        = (.error (.inputNotFound inputId), s)) ∧
    (∀ input, mapGet s.store.inputs inputId = some input →
      ((∃ msg, provider input = .error msg) ∨ provider input = .ok []) →
      ∃ msg, (VocaEngine.generateSuggestions provider s inputId now).1
        = .error (.providerFailure msg)) ∧
    (∀ input cands, mapGet s.store.inputs inputId = some input →
      input.id = inputId → provider input = .ok cands → cands ≠ [] →
      ∃ sugg, (VocaEngine.generateSuggestions provider s inputId now).1
          = .ok sugg ∧
        sugg.inputId = input.id ∧ sugg.candidates = cands ∧ cands ≠ [] ∧
        mapGet
          (VocaEngine.generateSuggestions provider s inputId now).2.store.suggestions
          sugg.id = some sugg) := by
  refine ⟨?_, ?_, ?_⟩
  · intro h
    unfold VocaEngine.generateSuggestions
    rw [h]
  · intro input hin hbad
    unfold VocaEngine.generateSuggestions
    simp only [hin]
    rcases hbad with ⟨msg, herr⟩ | hempty
    · rw [herr]
      exact ⟨_, rfl⟩
    · rw [hempty]
      exact ⟨_, rfl⟩
  · intro input cands hin hid hok hne
    unfold VocaEngine.generateSuggestions
    simp only [hin, hok]
    rw [if_neg (by simpa [List.length_eq_zero] using hne)]
    refine ⟨_, rfl, hid ▸ rfl, rfl, hne, ?_⟩
    exact mapGet_mapSet _ _ _

theorem generateSuggestions_contract_witness :
    mapGet exEngine.store.inputs "i1" = some exInput ∧
    exInput.id = "i1" ∧
    exProvider exInput = .ok ["alpha", "beta"] ∧
    (∃ sugg, (VocaEngine.generateSuggestions exProvider exEngine "i1" 60).1
        = .ok sugg ∧
      sugg.inputId = exInput.id ∧ sugg.candidates = ["alpha", "beta"] ∧
      (["alpha", "beta"] : List String) ≠ [] ∧
      mapGet
        (VocaEngine.generateSuggestions exProvider exEngine "i1" 60).2.store.suggestions
        sugg.id = some sugg) :=
  ⟨by decide, by decide, by rfl,
   (generateSuggestions_contract exProvider exEngine "i1" 60).2.2 exInput
     ["alpha", "beta"] (by decide) (by decide) (by rfl) (by decide)⟩

/-- C6 (amended): entries produced by the engine operations `saveEntry` and
`updateEntryTags` satisfy the tag-set invariant (every tag trimmed and
non-empty, no duplicates, first occurrences in order — the normalization is
exactly `cleanTags`), and in particular tags `["x","x","y"]` become
`["x","y"]`; the raw `Entry` builders are not covered (see the
counterexample). -/
theorem engine_tag_invariant (s : EngineState)
    (inputId suggId collId entryId : String) (otags : Option (List String))
    (tags : List String) (now : Nat) :
    (∀ e, (VocaEngine.saveEntry s inputId suggId collId otags now).1 = .ok e →
      e.tags = cleanTags (otags.getD []) ∧
      (∀ t ∈ e.tags, jsTrim t = t ∧ t ≠ "") ∧ e.tags.Nodup) ∧
    (∀ e, (VocaEngine.updateEntryTags s entryId tags now).1 = .ok e →
      e.tags = cleanTags tags ∧
      (∀ t ∈ e.tags, jsTrim t = t ∧ t ≠ "") ∧ e.tags.Nodup) ∧
    cleanTags ["x", "x", "y"] = ["x", "y"] := by
  refine ⟨?_, ?_, by decide⟩
  · intro e h
    unfold VocaEngine.saveEntry at h
    cases h1 : mapGet s.store.inputs inputId with
    | none => simp [h1] at h
    | some input =>
      simp only [h1] at h
      cases h2 : mapGet s.store.suggestions suggId with
      | none => simp [h2] at h
      | some sugg =>
        simp only [h2] at h
        cases h3 : mapGet s.store.collections collId with
        | none => simp [h3] at h
        | some coll =>
          simp only [h3] at h
          by_cases h4 : sugg.inputId ≠ inputId
          · rw [if_pos h4] at h
            simp at h
          · rw [if_neg h4] at h
            simp only [Except.ok.injEq] at h
            subst h
            exact ⟨rfl, (cleanTags_clean _).1, (cleanTags_clean _).2⟩
  · intro e h
    unfold VocaEngine.updateEntryTags at h
    cases h1 : mapGet s.store.entries entryId with
    | none => simp [h1] at h
    | some entry =>
      simp only [h1] at h
      simp only [Except.ok.injEq] at h
      subst h
      exact ⟨rfl, (cleanTags_clean _).1, (cleanTags_clean _).2⟩

/-- C6 (counterexample to the claim as stated): the raw builder
`Entry.updateTags` copies the tag list verbatim, so a duplicated tag list
survives and the produced entry violates the tag-set invariant. -/
theorem updateTags_violates_invariant :
    (Entry.updateTags exEntry ["x", "x"] 5000).tags = ["x", "x"] ∧
    ¬ (Entry.updateTags exEntry ["x", "x"] 5000).tags.Nodup := by
  constructor
  · rfl
  · intro h
    simp [Entry.updateTags] at h

theorem engine_tag_invariant_witness :
    ((VocaEngine.saveEntry exEngine "i1" "s1" "c1" (some ["x", "x", "y"]) 42).1
      = .ok exSavedEntry) ∧
    (exSavedEntry.tags = cleanTags ((some ["x", "x", "y"]).getD []) ∧
      (∀ t ∈ exSavedEntry.tags, jsTrim t = t ∧ t ≠ "") ∧
      exSavedEntry.tags.Nodup) :=
  ⟨by rfl,
   (engine_tag_invariant exEngine "i1" "s1" "c1" "e1" (some ["x", "x", "y"]) [] 42).1
     exSavedEntry (by rfl)⟩

/-- C4: for each of the four entity kinds, `fromJSON ∘ toJSON` reproduces
the entity exactly, timestamps included to the millisecond (the timestamp
is rendered by `toISOString` and re-parsed by `new Date`); stated for
timestamps in the standard ISO range the model covers. -/
theorem toJSON_fromJSON_roundtrip :
    (∀ e : ExpressionInput, e.createdAt < isoMax →
      ExpressionInput.fromJSON (ExpressionInput.toJSON e) = some e) ∧
    (∀ sg : Suggestion, sg.generatedAt < isoMax →
      Suggestion.fromJSON (Suggestion.toJSON sg) = some sg) ∧
    (∀ c : Collection, c.createdAt < isoMax →
      Collection.fromJSON (Collection.toJSON c) = some c) ∧
    (∀ e : Entry, e.savedAt < isoMax →
      Entry.fromJSON (Entry.toJSON e) = some e) := by
  refine ⟨?_, ?_, ?_, ?_⟩
  · intro e h
    unfold ExpressionInput.toJSON ExpressionInput.fromJSON
    rw [parseIso_toISOString _ h]
    rfl
  · intro sg h
    unfold Suggestion.toJSON Suggestion.fromJSON
    rw [parseIso_toISOString _ h]
    rfl
  · intro c h
    unfold Collection.toJSON Collection.fromJSON
    rw [parseIso_toISOString _ h]
    rfl
  · intro e h
    unfold Entry.toJSON Entry.fromJSON
    rw [parseIso_toISOString _ h]
    rfl

theorem toJSON_fromJSON_roundtrip_witness :
    exInput.createdAt < isoMax ∧
    ExpressionInput.fromJSON (ExpressionInput.toJSON exInput) = some exInput ∧
    exSuggestion.generatedAt < isoMax ∧
    Suggestion.fromJSON (Suggestion.toJSON exSuggestion) = some exSuggestion ∧
    exCollection.createdAt < isoMax ∧
    Collection.fromJSON (Collection.toJSON exCollection) = some exCollection ∧
    exEntry.savedAt < isoMax ∧
    Entry.fromJSON (Entry.toJSON exEntry) = some exEntry :=
  ⟨by decide, toJSON_fromJSON_roundtrip.1 exInput (by decide),
   by decide, toJSON_fromJSON_roundtrip.2.1 exSuggestion (by decide),
   by decide, toJSON_fromJSON_roundtrip.2.2.1 exCollection (by decide),
   by decide, toJSON_fromJSON_roundtrip.2.2.2 exEntry (by decide)⟩

/-- C1 (amended): the store's `searchEntries` implements the six-stage
spec procedure after normalizing JS-falsy options: an empty-string
`collectionId` and `limit: 0` behave as if the field were absent; all other
stages (query filter when present and non-empty, tags filter when present
and non-empty, `savedAt`-descending sort, offset/limit slice) match the
spec wording exactly. -/
theorem searchEntries_eq_spec_on_normalized (s : StoreState) (o : SearchOptions) :
    InMemoryStorage.searchEntries s o = searchEntriesSpec s (normalizeOptions o) := by
  obtain ⟨q, cid, tags, limit, off⟩ := o
  cases cid with
  | none =>
    cases limit with
    | none => rfl
    | some l =>
      cases l with
      | zero => rfl
      | succ l => rfl
  | some c =>
    by_cases hc : c = ""
    · subst hc
      cases limit with
      | none => rfl
      | some l =>
        cases l with
        | zero => rfl
        | succ l => rfl
    · cases limit with
      | none =>
        simp [InMemoryStorage.searchEntries, searchEntriesSpec, normalizeOptions, hc]
      | some l =>
        cases l with
        | zero =>
          simp [InMemoryStorage.searchEntries, searchEntriesSpec, normalizeOptions, hc]
        | succ l =>
          simp [InMemoryStorage.searchEntries, searchEntriesSpec, normalizeOptions, hc]

/-- C1 (counterexample to the claim as stated): with `limit: 0` supplied the
spec procedure returns at most 0 entries, but the source's
`options.limit || results.length` treats 0 as falsy and returns everything;
likewise a supplied empty-string `collectionId` is falsy, so the source
skips the collection filter that the claim's procedure would apply. -/
theorem searchEntries_limit_zero_diverges :
    (InMemoryStorage.searchEntries exStore { limit := some 0 } = [exEntry] ∧
      searchEntriesSpec exStore { limit := some 0 } = [] ∧
      InMemoryStorage.searchEntries exStore { limit := some 0 }
        ≠ searchEntriesSpec exStore { limit := some 0 }) ∧
    (InMemoryStorage.searchEntries exStore { collectionId := some "" } = [exEntry] ∧
      searchEntriesSpec exStore { collectionId := some "" } = [] ∧
      InMemoryStorage.searchEntries exStore { collectionId := some "" }
        ≠ searchEntriesSpec exStore { collectionId := some "" }) := by
  refine ⟨⟨by rfl, by rfl, by decide⟩, ⟨by rfl, by rfl, by decide⟩⟩

end VocaSpec
